import Mathlib

/-!
# Verification of the cardsharp repository against its specification

Shallow embedding of the core of the `cardsharp` program:
* `src/base64.rs` — the identifier codec (`to_base64` / `from_base64`),
  machine integers modelled as `ℕ` with explicit `% 2^64` where the Rust
  `u64` arithmetic wraps;
* `src/fsrs.rs` — the FSRS memory-state engine, `f32` arithmetic modelled
  over `ℝ`, with `powf` on a positive base as `Real.rpow` and `exp` as
  `Real.exp`;
* `src/main.rs` — the `review_again` transition and `State::save`;
* `src/data.rs` — `save_data`.

Definitions first, then the theorems about them.
-/

namespace Cardsharp

/-! ## Definitions: src/base64.rs -/

/-- `ALPHABET` from `src/base64.rs` line 2. -/
def ALPHABET : List Char :=
  ['A', 'B', 'C', 'D', 'E', 'F', 'G', 'H', 'I', 'J', 'K', 'L', 'M',
   'N', 'O', 'P', 'Q', 'R', 'S', 'T', 'U', 'V', 'W', 'X', 'Y', 'Z',
   'a', 'b', 'c', 'd', 'e', 'f', 'g', 'h', 'i', 'j', 'k', 'l', 'm',
   'n', 'o', 'p', 'q', 'r', 's', 't', 'u', 'v', 'w', 'x', 'y', 'z',
   '0', '1', '2', '3', '4', '5', '6', '7', '8', '9', '+', '/']

/-- The loop body of `to_base64`: eleven iterations of
`res.push(ALPHABET[(data >> 58) as usize]); data <<= 6;` where `data : u64`,
so the left shift wraps modulo `2^64`.  The fuel argument counts the
remaining iterations. -/
def to_base64_loop : ℕ → ℕ → List Char
  | _, 0 => []
  | data, n + 1 =>
    ALPHABET.getD (data / 2 ^ 58) 'A' :: to_base64_loop (data * 2 ^ 6 % 2 ^ 64) n

/-- `to_base64` from `src/base64.rs` lines 4-12: eleven alphabet symbols
followed by a literal `'='`. -/
def to_base64 (data : ℕ) : List Char :=
  to_base64_loop data 11 ++ ['=']

/-- The byte length of a string, as Rust's `str::len` counts it
(UTF-8 bytes, not chars). -/
def byteLen (s : List Char) : ℕ :=
  (s.map Char.utf8Size).sum

/-- The loop of `from_base64` (`src/base64.rs` lines 18-31).  `len` is the
byte length of the whole input (`data.len()` in Rust), `idx` the current
char index of the `enumerate`, `res` the `u64` accumulator; the Rust shifts
`res <<= 6` / `res <<= 4` wrap modulo `2^64`, and the `?` on the failed
alphabet lookup is `Option.bind`. -/
def from_base64_loop (len : ℕ) : List Char → ℕ → ℕ → Option ℕ
  | [], _, res => some res
  | c :: rest, idx, res =>
    if c = '=' then some res
    else
      (ALPHABET.findIdx? (fun e => e == c)).bind fun position =>
        if idx = len - 2 then
          from_base64_loop len rest (idx + 1) ((res <<< 4) % 2 ^ 64 ||| position >>> 2)
        else
          from_base64_loop len rest (idx + 1) ((res <<< 6) % 2 ^ 64 ||| position)

/-- `from_base64` from `src/base64.rs` lines 13-33. -/
def from_base64 (data : List Char) : Option ℕ :=
  if byteLen data ≠ 12 then none
  else from_base64_loop (byteLen data) data 0 0

/-- The value accumulated by `from_base64_loop` while it consumes the output
of `to_base64_loop`: the last alphabet symbol (fuel `1`) contributes four
bits, every earlier one six. -/
def decodeAcc : ℕ → ℕ → ℕ → ℕ
  | 0, _, res => res
  | 1, d, res => res * 2 ^ 4 % 2 ^ 64 + d / 2 ^ 58 / 2 ^ 2
  | n + 2, d, res =>
    decodeAcc (n + 1) (d * 2 ^ 6 % 2 ^ 64) (res * 2 ^ 6 % 2 ^ 64 + d / 2 ^ 58)

/-- The `u64` value held by `data` after `i` wrapping left-shifts of six
bits (`data <<= 6` in the `to_base64` loop). -/
def shiftIter : ℕ → ℕ → ℕ
  | d, 0 => d
  | d, i + 1 => shiftIter (d * 2 ^ 6 % 2 ^ 64) i

/-! ## Definitions: src/fsrs.rs — the FSRS memory-state engine -/

/-- `WEIGHTS` from `src/fsrs.rs` lines 10-13. -/
noncomputable def WEIGHTS : List ℝ :=
  [0.212, 1.2931, 2.3065, 8.2956, 6.4133, 0.8334, 3.0194, 0.001, 1.8722,
   0.1666, 0.796, 1.4835, 0.0614, 0.2629, 1.6483, 0.6014, 1.8729, 0.5425,
   0.0912, 0.0658, 0.1542]

/-- `w[i]` in the Rust code. -/
noncomputable def w (i : ℕ) : ℝ := WEIGHTS.getD i 0

/-- `Grade` from `src/fsrs.rs` lines 15-21. -/
inductive Grade
  | Again
  | Hard
  | Good
  | Easy
  deriving DecidableEq

/-- The numeric discriminant of a `Grade` (`Again = 1`, …, `Easy = 4`),
what `grade as u8` / `grade as usize` produce in Rust. -/
def gradeNum : Grade → ℕ
  | .Again => 1
  | .Hard => 2
  | .Good => 3
  | .Easy => 4

/-- `FSRSParams` from `src/fsrs.rs` lines 23-27. -/
structure FSRSParams where
  stability : ℝ
  difficulty : ℝ

/-- `FSRSParams::new` (lines 30-35): `difficulty.clamp(1.0, 10.0)`. -/
noncomputable def FSRSParams.new (stability difficulty : ℝ) : FSRSParams :=
  ⟨stability, max 1 (min difficulty 10)⟩

/-- `FSRSParams::from_initial_grade` (lines 36-45). -/
noncomputable def FSRSParams.from_initial_grade (grade : Grade) : FSRSParams :=
  let g : ℝ := gradeNum grade
  FSRSParams.new (w (gradeNum grade - 1)) (w 4 - Real.exp (w 5 * (g - 1)) + 1)

/-- `FSRSParams::recall_probability` (lines 84-90). -/
noncomputable def FSRSParams.recall_probability (p : FSRSParams) (time : ℝ) : ℝ :=
  let factor := (0.9 : ℝ) ^ (-1 / w 20) - 1
  (1 + factor * time / p.stability) ^ (-w 20)

/-- `FSRSParams::update_successful` (lines 47-67). -/
noncomputable def FSRSParams.update_successful (p : FSRSParams) (grade : Grade) :
    FSRSParams :=
  let g : ℝ := gradeNum grade
  let s := p.stability
  let d := p.difficulty
  let r := p.recall_probability 0
  let increase_d := 11 - d
  let increase_s := s ^ (-w 9)
  let increase_r := Real.exp (w 10 * (1 - r) - 1)
  let increase := 1 + increase_d * increase_s * increase_r
  let delta_d := -w 6 * (g - 3)
  let d1 := d + delta_d * (10 - d) / 9
  let d2 := w 7 * (FSRSParams.from_initial_grade Grade.Easy).difficulty + (1 - w 7) * d1
  FSRSParams.new (s * increase) d2

/-- `FSRSParams::update_same_day` (lines 69-81). -/
noncomputable def FSRSParams.update_same_day (p : FSRSParams) (grade : Grade) :
    FSRSParams :=
  let g : ℝ := gradeNum grade
  let s := p.stability
  let sinc := Real.exp (w 17 * (g - 3 + w 18)) * s ^ (-w 19)
  let s2 := s * sinc
  let s3 := if 3 ≤ g then max s2 s else s2
  FSRSParams.new s3 p.difficulty

/-- One review of a card after its first grading: either the normal
`update_successful` path or the same-day variant. -/
inductive ReviewStep
  | successful (g : Grade)
  | sameDay (g : Grade)

noncomputable def applyStep (p : FSRSParams) : ReviewStep → FSRSParams
  | .successful g => p.update_successful g
  | .sameDay g => p.update_same_day g

/-- The memory state reached from initial grade `g0` after a sequence of
review steps: every state reachable through the engine's operations. -/
noncomputable def runReviews (g0 : Grade) (steps : List ReviewStep) : FSRSParams :=
  steps.foldl applyStep (FSRSParams.from_initial_grade g0)

/-! ## Definitions: src/main.rs — the review transition -/

/-- `CardParams` from `src/main.rs` lines 117-121: the stored review
record.  The `SystemTime` timestamp is modelled as seconds (a real). -/
structure CardParams where
  last_review : ℝ
  fsrs : FSRSParams

/-- The elapsed-days computation of `review_again` (`src/main.rs` line
215): `last_review.elapsed()?.as_secs_f32() / (60.0 * 60.0 * 24.0)`. -/
noncomputable def elapsed_days (last_review now : ℝ) : ℝ :=
  (now - last_review) / (60 * 60 * 24)

/-- Modelled from the spec's words (§4.5 transition rule), for comparison
with `elapsed_days`: "compute elapsed days since last review (plus a fixed
one-day grace)". -/
noncomputable def spec_elapsed_days (last_review now : ℝ) : ℝ :=
  (now - last_review) / (60 * 60 * 24) + 1

/-- `review_again` from `src/main.rs` lines 210-226.  `now` is the wall
clock at the call; `grade` is the grade `review_card` would return if the
card is presented; the `Bool` of the result records whether `review_card`
was invoked.  `SystemTime::elapsed` errors when the stored timestamp lies
in the future, and `?` propagates that error (`none`). -/
noncomputable def review_again (p : CardParams) (now retention : ℝ)
    (grade : Grade) : Option (CardParams × Bool) :=
  if p.last_review ≤ now then
    let days_elapsed := elapsed_days p.last_review now
    let r := p.fsrs.recall_probability days_elapsed
    if r < retention then
      some (⟨p.last_review,
        if 1 < gradeNum grade then p.fsrs.update_successful grade
        else p.fsrs⟩, true)
    else
      some (p, false)
  else none

/-! ## Definitions: persistence — `State::save` (src/main.rs 158-162) and
`save_data` (src/data.rs 45-50)

A file is a byte list; `ser` stands for the byte serialization that
`serde_json::to_writer` emits for the in-memory data. -/

/-- Seeking to `Start(0)` and then writing `new`: the written bytes replace
the prefix of the old contents, and any tail of longer old contents
survives. -/
def overwrite_from_start (old new : List ℕ) : List ℕ :=
  new ++ old.drop new.length

/-- `State::save` from `src/main.rs` lines 158-162: `seek(SeekFrom::Start(0))`
followed by `serde_json::to_writer` — no truncation. -/
def State.save (old ser : List ℕ) : List ℕ :=
  overwrite_from_start old ser

/-- `save_data` from `src/data.rs` lines 45-50: `set_len(0)` truncates the
file, then seek to start and write. -/
def save_data (old ser : List ℕ) : List ℕ :=
  overwrite_from_start (old.take 0) ser

/-! ## Theorems

First, sanity checks that the embedded codec reproduces the repository's
own unit tests (`src/base64.rs` lines 40-59). -/

example : to_base64 17917863107911671779 = "+KkJkFEm3+M=".toList := by decide
example : from_base64 "+KkJkFEm3+M=".toList = some 17917863107911671779 := by decide
example : from_base64 "9_gn0vVKjjs=".toList = none := by decide

/-! ### Helper lemmas about the codec -/

/-- Bitwise-or is plain addition when the left operand has zero low bits and
the right operand fits in them (the shape of `res <<= k; res |= small`). -/
lemma lor_exact (k : ℕ) {a b : ℕ} (ha : a % 2 ^ k = 0) (hb : b < 2 ^ k) :
    a ||| b = a + b := by
  obtain ⟨q, rfl⟩ := Nat.dvd_of_mod_eq_zero ha
  exact (Nat.mul_add_lt_is_or hb q).symm

lemma utf8Size_ALPHABET_getD (k : ℕ) : (ALPHABET.getD k 'A').utf8Size = 1 := by
  rcases lt_or_ge k 64 with h | h
  · revert k; decide
  · rw [List.getD_eq_default _ _ (by simpa [ALPHABET] using h)]; decide

lemma ALPHABET_getD_ne_eq (k : ℕ) : ALPHABET.getD k 'A' ≠ '=' := by
  rcases lt_or_ge k 64 with h | h
  · revert k; decide
  · rw [List.getD_eq_default _ _ (by simpa [ALPHABET] using h)]; decide

lemma findIdx_ALPHABET_getD (k : ℕ) (hk : k < 64) :
    ALPHABET.findIdx? (fun e => e == ALPHABET.getD k 'A') = some k := by
  revert k; decide

lemma byteLen_append (l1 l2 : List Char) :
    byteLen (l1 ++ l2) = byteLen l1 + byteLen l2 := by
  simp [byteLen]

lemma byteLen_cons (c : Char) (l : List Char) :
    byteLen (c :: l) = c.utf8Size + byteLen l := by
  simp [byteLen]

lemma byteLen_to_base64_loop (n : ℕ) :
    ∀ d, byteLen (to_base64_loop d n) = n := by
  induction n with
  | zero => intro d; rfl
  | succ n ih =>
    intro d
    rw [to_base64_loop, byteLen_cons, utf8Size_ALPHABET_getD, ih]
    omega

lemma byteLen_to_base64 (d : ℕ) : byteLen (to_base64 d) = 12 := by
  rw [to_base64, byteLen_append, byteLen_to_base64_loop]
  decide

lemma from_loop_to_loop :
    ∀ n : ℕ, n ≤ 11 → ∀ d res : ℕ, d < 2 ^ 64 →
      from_base64_loop 12 (to_base64_loop d n ++ ['=']) (11 - n) res =
        some (decodeAcc n d res) := by
  intro n
  induction n with
  | zero => intro _ d res _; rfl
  | succ n ih =>
    intro hn d res hd
    have hk : d / 2 ^ 58 < 64 := by omega
    rw [to_base64_loop, List.cons_append]
    simp only [from_base64_loop]
    rw [if_neg (ALPHABET_getD_ne_eq (d / 2 ^ 58)), findIdx_ALPHABET_getD _ hk]
    simp only [Option.some_bind]
    cases n with
    | zero =>
      rw [if_pos (by norm_num)]
      have hlor : (res <<< 4) % 2 ^ 64 ||| (d / 2 ^ 58) >>> 2 =
          res * 2 ^ 4 % 2 ^ 64 + d / 2 ^ 58 / 2 ^ 2 := by
        rw [Nat.shiftLeft_eq, Nat.shiftRight_eq_div_pow]
        exact lor_exact 4 (by omega) (by omega)
      rw [hlor]
      rfl
    | succ m =>
      rw [if_neg (by omega)]
      have hlor : (res <<< 6) % 2 ^ 64 ||| d / 2 ^ 58 =
          res * 2 ^ 6 % 2 ^ 64 + d / 2 ^ 58 := by
        rw [Nat.shiftLeft_eq]
        exact lor_exact 6 (by omega) (by omega)
      rw [hlor]
      have hidx : 11 - (m + 1 + 1) + 1 = 11 - (m + 1) := by omega
      rw [hidx]
      exact ih (by omega) (d * 2 ^ 6 % 2 ^ 64) (res * 2 ^ 6 % 2 ^ 64 + d / 2 ^ 58)
        (by omega)

/-! ### C1 — round-trip of the identifier codec -/

set_option maxHeartbeats 2000000 in
/-- **C1** — Round-trip of the identifier codec: for every 64-bit identifier
value, `from_base64 (to_base64 id) = some id`
(`src/base64.rs`, `to_base64` lines 4-12, `from_base64` lines 13-33). -/
theorem c1_decode_encode_roundtrip (data : ℕ) (h : data < 2 ^ 64) :
    from_base64 (to_base64 data) = some data := by
  have hb : byteLen (to_base64 data) = 12 := byteLen_to_base64 data
  rw [from_base64, hb, if_neg (by norm_num)]
  have hmain := from_loop_to_loop 11 (by norm_num) data 0 h
  rw [Nat.sub_self] at hmain
  rw [to_base64, hmain]
  congr 1
  simp only [decodeAcc]
  omega

/-- Witness for C1 at the concrete identifier from the repository's own
test suite. -/
theorem c1_decode_encode_roundtrip_witness :
    17917863107911671779 < 2 ^ 64 ∧
      from_base64 (to_base64 17917863107911671779) =
        some 17917863107911671779 :=
  ⟨by norm_num, c1_decode_encode_roundtrip 17917863107911671779 (by norm_num)⟩

/-! ### C6 — rejection of malformed tokens

The wrong-length half of the claim holds.  The bad-character half fails as
stated: the decode loop `break`s at the first `'='` and returns the
accumulator, so a correctly sized token whose out-of-alphabet character
sits after a `'='` is *accepted* (e.g. `"=_AAAAAAAAAA"` decodes to `0`).
The rejection guarantee only covers characters before the first `'='`. -/

/-- **C6, counterexample** — `"=_AAAAAAAAAA"` has the right length and
contains `'_'`, a character outside the alphabet, yet `from_base64`
returns `some 0` rather than an error. -/
theorem c6_counterexample :
    byteLen "=_AAAAAAAAAA".toList = 12 ∧
      '_' ∈ "=_AAAAAAAAAA".toList ∧
      '_' ∉ ALPHABET ∧
      from_base64 "=_AAAAAAAAAA".toList = some 0 := by
  decide

lemma from_base64_loop_none (len : ℕ) :
    ∀ (l : List Char) (idx res : ℕ) (c : Char),
      c ∈ l.takeWhile (fun x => x != '=') → c ∉ ALPHABET →
      from_base64_loop len l idx res = none := by
  intro l
  induction l with
  | nil => intro idx res c hc _; simp at hc
  | cons a l ih =>
    intro idx res c hc hcal
    by_cases ha : a = '='
    · subst ha; simp [List.takeWhile_cons] at hc
    · rw [List.takeWhile_cons, if_pos (by simpa using ha)] at hc
      simp only [from_base64_loop]
      rw [if_neg ha]
      rcases List.mem_cons.mp hc with rfl | hc2
      · have hnone : ALPHABET.findIdx? (fun e => e == c) = none := by
          rw [List.findIdx?_eq_none_iff]
          intro x hx
          simp only [beq_eq_false_iff_ne, ne_eq]
          rintro rfl
          exact hcal hx
        rw [hnone]
        rfl
      · cases hfind : ALPHABET.findIdx? (fun e => e == a) with
        | none => rfl
        | some p =>
          simp only [Option.some_bind]
          split
          · exact ih _ _ c hc2 hcal
          · exact ih _ _ c hc2 hcal

/-- **C6, amended** — `from_base64` returns `none` for every input of the
wrong byte length, and for every right-length input containing a character
outside the alphabet *before the first `'='`* (characters at or after the
first `'='` are skipped by the loop's early `break`). -/
theorem c6_decode_rejection (l : List Char) (c : Char) :
    (byteLen l ≠ 12 → from_base64 l = none) ∧
      (byteLen l = 12 → c ∈ l.takeWhile (fun x => x != '=') → c ∉ ALPHABET →
        from_base64 l = none) := by
  constructor
  · intro h
    rw [from_base64, if_pos h]
  · intro hlen hc hcal
    rw [from_base64, if_neg (by simp [hlen])]
    exact from_base64_loop_none _ l 0 0 c hc hcal

/-- Witness for C6 at a short input and at a length-12 input holding `'_'`
before any `'='`. -/
theorem c6_decode_rejection_witness :
    (byteLen ['A'] ≠ 12 ∧ from_base64 ['A'] = none) ∧
      (byteLen "A_AAAAAAAAAA".toList = 12 ∧
        '_' ∈ "A_AAAAAAAAAA".toList.takeWhile (fun x => x != '=') ∧
        '_' ∉ ALPHABET ∧
        from_base64 "A_AAAAAAAAAA".toList = none) :=
  ⟨⟨by decide, (c6_decode_rejection ['A'] 'A').1 (by decide)⟩,
    ⟨by decide, by decide, by decide,
      (c6_decode_rejection "A_AAAAAAAAAA".toList '_').2
        (by decide) (by decide) (by decide)⟩⟩

/-! ### C9 — shape of the encoded token

The token has fixed length 12 and its first eleven symbols are drawn from
the 64-symbol alphabet with the final alphabet symbol zero-padded in its
low two bits — but the twelfth character is the padding `'='`, which is
*not* one of the 64 alphabet symbols, so "all symbols drawn from the
alphabet" fails as stated. -/

/-- **C9, counterexample** — the token of identifier `0` contains `'='`,
which is outside the 64-symbol alphabet. -/
theorem c9_counterexample : '=' ∈ to_base64 0 ∧ '=' ∉ ALPHABET := by
  decide

lemma shiftIter_lt : ∀ (i d : ℕ), d < 2 ^ 64 → shiftIter d i < 2 ^ 64 := by
  intro i
  induction i with
  | zero => intro d hd; exact hd
  | succ i ih => intro d _; exact ih _ (by omega)

lemma to_base64_loop_length : ∀ (n d : ℕ), (to_base64_loop d n).length = n := by
  intro n
  induction n with
  | zero => intro d; rfl
  | succ n ih => intro d; rw [to_base64_loop, List.length_cons, ih]

lemma mem_to_base64_loop :
    ∀ (n d : ℕ) (c : Char), d < 2 ^ 64 → c ∈ to_base64_loop d n →
      c ∈ ALPHABET := by
  intro n
  induction n with
  | zero => intro d c _ hc; simp [to_base64_loop] at hc
  | succ n ih =>
    intro d c hd hc
    rw [to_base64_loop] at hc
    rcases List.mem_cons.mp hc with rfl | hc2
    · rw [List.getD_eq_getElem _ _
        (by simpa [ALPHABET] using by omega : d / 2 ^ 58 < ALPHABET.length)]
      exact List.getElem_mem _
    · exact ih _ c (by omega) hc2

lemma to_base64_loop_getElem :
    ∀ (i n d : ℕ), i < n →
      (to_base64_loop d n)[i]? =
        some (ALPHABET.getD (shiftIter d i / 2 ^ 58) 'A') := by
  intro i
  induction i with
  | zero =>
    intro n d hn
    match n with
    | m + 1 => rw [to_base64_loop]; simp [shiftIter]
  | succ i ih =>
    intro n d hn
    match n with
    | m + 1 =>
      rw [to_base64_loop]
      simpa [shiftIter] using ih m (d * 2 ^ 6 % 2 ^ 64) (by omega)

/-- **C9, amended** — for every 64-bit identifier, `to_base64` produces a
token of fixed length 12 whose first eleven symbols are drawn from the
64-symbol alphabet; the eleventh alphabet symbol has its low-order two bits
zero, and the final (twelfth) character is the padding `'='`, which is not
an alphabet symbol. -/
theorem c9_token_shape (data : ℕ) (h : data < 2 ^ 64) :
    (to_base64 data).length = 12 ∧
      (∀ c ∈ (to_base64 data).take 11, c ∈ ALPHABET) ∧
      (to_base64 data).getLast? = some '=' ∧
      ∃ k, k < 64 ∧ k % 4 = 0 ∧
        (to_base64 data)[10]? = some (ALPHABET.getD k 'A') := by
  have hlen : (to_base64_loop data 11).length = 11 := to_base64_loop_length 11 data
  refine ⟨?_, ?_, ?_, ?_⟩
  · rw [to_base64, List.length_append, hlen]
    rfl
  · intro c hc
    rw [to_base64, List.take_left' hlen] at hc
    exact mem_to_base64_loop 11 data c h hc
  · rw [to_base64, List.getLast?_concat]
  · refine ⟨shiftIter data 10 / 2 ^ 58, ?_, ?_, ?_⟩
    · have := shiftIter_lt 10 data h
      omega
    · have e : shiftIter data 10 = data * 2 ^ 60 % 2 ^ 64 := by
        simp only [shiftIter]
        omega
      rw [e]
      omega
    · rw [to_base64,
        List.getElem?_append_left (by omega : 10 < (to_base64_loop data 11).length)]
      exact to_base64_loop_getElem 10 11 data (by omega)

/-- Witness for C9 at identifier `5`. -/
theorem c9_token_shape_witness :
    5 < 2 ^ 64 ∧
      ((to_base64 5).length = 12 ∧
        (∀ c ∈ (to_base64 5).take 11, c ∈ ALPHABET) ∧
        (to_base64 5).getLast? = some '=' ∧
        ∃ k, k < 64 ∧ k % 4 = 0 ∧
          (to_base64 5)[10]? = some (ALPHABET.getD k 'A')) :=
  ⟨by norm_num, c9_token_shape 5 (by norm_num)⟩

/-! ### C2 — the difficulty invariant -/

lemma new_difficulty_mem (s d : ℝ) :
    1 ≤ (FSRSParams.new s d).difficulty ∧ (FSRSParams.new s d).difficulty ≤ 10 :=
  ⟨le_max_left 1 _, max_le (by norm_num) (min_le_right d 10)⟩

lemma from_initial_grade_difficulty_mem (g : Grade) :
    1 ≤ (FSRSParams.from_initial_grade g).difficulty ∧
      (FSRSParams.from_initial_grade g).difficulty ≤ 10 := by
  unfold FSRSParams.from_initial_grade
  exact new_difficulty_mem _ _

lemma update_successful_difficulty_mem (p : FSRSParams) (g : Grade) :
    1 ≤ (p.update_successful g).difficulty ∧
      (p.update_successful g).difficulty ≤ 10 := by
  unfold FSRSParams.update_successful
  exact new_difficulty_mem _ _

lemma update_same_day_difficulty_mem (p : FSRSParams) (g : Grade) :
    1 ≤ (p.update_same_day g).difficulty ∧
      (p.update_same_day g).difficulty ≤ 10 := by
  unfold FSRSParams.update_same_day
  exact new_difficulty_mem _ _

lemma foldl_difficulty_mem :
    ∀ (steps : List ReviewStep) (p : FSRSParams),
      1 ≤ p.difficulty ∧ p.difficulty ≤ 10 →
      1 ≤ (steps.foldl applyStep p).difficulty ∧
        (steps.foldl applyStep p).difficulty ≤ 10 := by
  intro steps
  induction steps with
  | nil => intro p hp; exact hp
  | cons s rest ih =>
    intro p _
    rw [List.foldl_cons]
    apply ih
    cases s with
    | successful g => exact update_successful_difficulty_mem p g
    | sameDay g => exact update_same_day_difficulty_mem p g

/-- **C2** — Difficulty invariant: for every initial grade and every
sequence of reviews (normal or same-day), the difficulty of the reached
memory state lies in `[1, 10]` (`src/fsrs.rs`, the `clamp` in
`FSRSParams::new`, used by every transition). -/
theorem c2_difficulty_invariant (g0 : Grade) (steps : List ReviewStep) :
    1 ≤ (runReviews g0 steps).difficulty ∧ (runReviews g0 steps).difficulty ≤ 10 :=
  foldl_difficulty_mem steps _ (from_initial_grade_difficulty_mem g0)

/-! ### C7 — recall probability: monotonicity and value at zero -/

lemma w20_eq : w 20 = (0.1542 : ℝ) := rfl

lemma factor_pos : 0 < (0.9 : ℝ) ^ (-1 / w 20) - 1 := by
  have h : 1 < (0.9 : ℝ) ^ (-1 / w 20) := by
    rw [w20_eq, Real.one_lt_rpow_iff_of_pos (by norm_num)]
    right
    constructor <;> norm_num
  linarith

/-- **C7** — For every memory state with positive stability,
`recall_probability` is non-increasing in elapsed time, and at elapsed
time `0` it is exactly `1` (`src/fsrs.rs` lines 84-90). -/
theorem c7_recall_monotone (p : FSRSParams) (t1 t2 : ℝ)
    (hs : 0 < p.stability) (ht1 : 0 ≤ t1) (h12 : t1 ≤ t2) :
    p.recall_probability t2 ≤ p.recall_probability t1 ∧
      p.recall_probability 0 = 1 := by
  constructor
  · unfold FSRSParams.recall_probability
    have hf : (0 : ℝ) ≤ (0.9 : ℝ) ^ (-1 / w 20) - 1 := factor_pos.le
    have hbase1 : (0 : ℝ) <
        1 + ((0.9 : ℝ) ^ (-1 / w 20) - 1) * t1 / p.stability := by
      have : (0 : ℝ) ≤ ((0.9 : ℝ) ^ (-1 / w 20) - 1) * t1 / p.stability :=
        div_nonneg (mul_nonneg hf ht1) hs.le
      linarith
    have hb12 :
        1 + ((0.9 : ℝ) ^ (-1 / w 20) - 1) * t1 / p.stability ≤
          1 + ((0.9 : ℝ) ^ (-1 / w 20) - 1) * t2 / p.stability := by
      gcongr
    exact Real.rpow_le_rpow_of_nonpos hbase1 hb12 (by rw [w20_eq]; norm_num)
  · unfold FSRSParams.recall_probability
    simp [Real.one_rpow]

/-- `recall_probability` at elapsed time `0` is exactly `1`, for any state. -/
lemma recall_probability_zero (p : FSRSParams) : p.recall_probability 0 = 1 := by
  unfold FSRSParams.recall_probability
  simp [Real.one_rpow]

/-- Witness for C7 at the state `⟨1, 5⟩` and times `0 ≤ 1`. -/
theorem c7_recall_monotone_witness :
    0 < (FSRSParams.mk 1 5).stability ∧ (0 : ℝ) ≤ 0 ∧ (0 : ℝ) ≤ 1 ∧
      ((FSRSParams.mk 1 5).recall_probability 1 ≤
          (FSRSParams.mk 1 5).recall_probability 0 ∧
        (FSRSParams.mk 1 5).recall_probability 0 = 1) :=
  ⟨one_pos, le_refl 0, zero_le_one,
    c7_recall_monotone (FSRSParams.mk 1 5) 0 1 one_pos (le_refl 0) zero_le_one⟩

/-! ### C10 — the same-day floor for passing grades -/

/-- **C10** — For every memory state with positive stability and every
grade at least `Good`, the same-day update never lowers stability: the
rescaled value is floored at the pre-review stability
(`src/fsrs.rs` lines 69-81, the `s2.max(s)` under `g >= 3.0`). -/
theorem c10_same_day_floor (p : FSRSParams) (grade : Grade)
    (_hs : 0 < p.stability) (hg : 3 ≤ gradeNum grade) :
    p.stability ≤ (p.update_same_day grade).stability := by
  have hg' : (3 : ℝ) ≤ (gradeNum grade : ℕ) := by exact_mod_cast hg
  simp only [FSRSParams.update_same_day, FSRSParams.new]
  rw [if_pos hg']
  exact le_max_right _ _

/-- Witness for C10 at the state `⟨1, 5⟩` and grade `Good`. -/
theorem c10_same_day_floor_witness :
    0 < (FSRSParams.mk 1 5).stability ∧ 3 ≤ gradeNum Grade.Good ∧
      (FSRSParams.mk 1 5).stability ≤
        ((FSRSParams.mk 1 5).update_same_day Grade.Good).stability :=
  ⟨one_pos, by decide,
    c10_same_day_floor (FSRSParams.mk 1 5) Grade.Good one_pos (by decide)⟩

/-! ### C3 — the due check -/

/-- **C3, counterexample** — the elapsed-days input `review_again` feeds to
`recall_probability` is *not* "days since last review plus a fixed one-day
grace": one day after the last review the code passes `1`, the claimed
value is `2`. -/
theorem c3_counterexample :
    elapsed_days 0 86400 ≠ spec_elapsed_days 0 86400 := by
  unfold elapsed_days spec_elapsed_days
  norm_num

/-- **C3, amended** — the elapsed-days input is exactly the days since the
last review (no grace term), and the card is presented iff
`recall_probability(state, elapsed) < retention`, i.e. skipped iff
`recall_probability(state, elapsed) >= retention`
(`src/main.rs` lines 210-226). -/
theorem c3_due_check (p : CardParams) (now retention : ℝ) (grade : Grade)
    (h : p.last_review ≤ now) :
    ((review_again p now retention grade).map Prod.snd = some true ↔
      p.fsrs.recall_probability (elapsed_days p.last_review now) < retention) := by
  unfold review_again
  rw [if_pos h]
  by_cases hr :
      p.fsrs.recall_probability (elapsed_days p.last_review now) < retention
  · rw [if_pos hr]
    simpa using hr
  · rw [if_neg hr]
    simpa using hr

/-- Witness for C3 at a record whose last review is `now`. -/
theorem c3_due_check_witness :
    (0 : ℝ) ≤ 0 ∧
      ((review_again ⟨0, FSRSParams.mk 1 5⟩ 0 2 Grade.Good).map Prod.snd =
          some true ↔
        (FSRSParams.mk 1 5).recall_probability (elapsed_days 0 0) < 2) :=
  ⟨le_refl 0, c3_due_check ⟨0, FSRSParams.mk 1 5⟩ 0 2 Grade.Good (le_refl 0)⟩

/-! ### C4 — the record's timestamp on a subsequent review -/

/-- **C4, divergence witness** — a card last reviewed at time `0`,
presented and graded `Good` at time `86400` (one day later): the stored
record's `last_review` is still `0`, not the review time; `review_again`
only ever assigns the `fsrs` field (`src/main.rs` line 222), never
`last_review`. -/
theorem c4_last_review_not_updated :
    (review_again ⟨0, FSRSParams.mk 1 5⟩ 86400 2 Grade.Good).map
        (fun x => (x.1.last_review, x.2)) = some ((0 : ℝ), true) ∧
      (0 : ℝ) ≠ 86400 := by
  constructor
  · unfold review_again
    rw [if_pos (by norm_num)]
    have h1 : elapsed_days 0 86400 = 1 := by
      unfold elapsed_days
      norm_num
    have hr : (FSRSParams.mk 1 5).recall_probability (elapsed_days 0 86400) < 2 := by
      rw [h1]
      unfold FSRSParams.recall_probability
      have hf := factor_pos
      have hb : (1 : ℝ) ≤
          1 + ((0.9 : ℝ) ^ (-1 / w 20) - 1) * 1 / (FSRSParams.mk 1 5).stability := by
        have hst : (FSRSParams.mk 1 5).stability = 1 := rfl
        rw [hst]
        linarith
      have hnp : -w 20 ≤ 0 := by
        rw [w20_eq]
        norm_num
      have := Real.rpow_le_one_of_one_le_of_nonpos hb hnp
      calc (1 + ((0.9 : ℝ) ^ (-1 / w 20) - 1) * 1 / (FSRSParams.mk 1 5).stability)
            ^ (-w 20) ≤ 1 := this
        _ < 2 := by norm_num
    rw [if_pos hr]
    rfl
  · norm_num

/-! ### C5 — which grades replace the memory state -/

/-- **C5** — For every presented card with an existing record, a passing
grade (`Hard`, `Good`, `Easy`) replaces the stored `MemoryState` via
`update_successful`, while `Again` leaves it untouched
(`src/main.rs` lines 220-223, the `grade as u8 > 1` guard). -/
theorem c5_grade_update (p : CardParams) (now retention : ℝ) (grade : Grade)
    (h : p.last_review ≤ now)
    (hr : p.fsrs.recall_probability (elapsed_days p.last_review now) < retention) :
    (review_again p now retention grade).map (fun x => x.1.fsrs) =
      some (match grade with
            | Grade.Again => p.fsrs
            | _ => p.fsrs.update_successful grade) := by
  unfold review_again
  rw [if_pos h, if_pos hr]
  cases grade <;> simp [gradeNum]

/-- Witness for C5: a just-reviewed card presented with retention `2` and
graded `Again` keeps its memory state. -/
theorem c5_grade_update_witness :
    (0 : ℝ) ≤ 0 ∧
      (FSRSParams.mk 1 5).recall_probability (elapsed_days 0 0) < 2 ∧
      (review_again ⟨0, FSRSParams.mk 1 5⟩ 0 2 Grade.Again).map
          (fun x => x.1.fsrs) = some (FSRSParams.mk 1 5) := by
  have he : elapsed_days 0 0 = 0 := by
    unfold elapsed_days
    norm_num
  have hr : (FSRSParams.mk 1 5).recall_probability (elapsed_days 0 0) < 2 := by
    rw [he, recall_probability_zero]
    norm_num
  exact ⟨le_refl 0, hr,
    c5_grade_update ⟨0, FSRSParams.mk 1 5⟩ 0 2 Grade.Again (le_refl 0) hr⟩

/-! ### C8 — what `save` leaves in the file -/

/-- **C8, counterexample** — `State::save` does not truncate: overwriting
two old bytes with a one-byte serialization leaves the stale second byte
in the file, so the file is not exactly the new serialization. -/
theorem c8_counterexample : State.save [1, 2] [3] ≠ [3] := by decide

/-- **C8, amended** — `save_data` truncates before writing, so the file
afterwards is exactly the serialization; `State::save` merely overwrites
from the start, which yields exactly the serialization only when the new
serialization is at least as long as the prior contents — otherwise
trailing bytes of the previous contents remain. -/
theorem c8_save_contents (old ser : List ℕ) :
    save_data old ser = ser ∧
      (old.length ≤ ser.length → State.save old ser = ser) := by
  constructor
  · simp [save_data, overwrite_from_start]
  · intro h
    simp [State.save, overwrite_from_start, List.drop_eq_nil_of_le h]

/-- Witness for C8 with one stale byte and a two-byte serialization. -/
theorem c8_save_contents_witness :
    save_data [1] [2, 3] = [2, 3] ∧
      ([1].length ≤ [2, 3].length ∧ State.save [1] [2, 3] = [2, 3]) :=
  ⟨(c8_save_contents [1] [2, 3]).1,
    by decide, (c8_save_contents [1] [2, 3]).2 (by decide)⟩

end Cardsharp
